import Mathlib

/-!
# Verification of the hp degree-of-freedom index store (`internal::hp::DoFLevel`)

Shallow embedding of `deal.II/include/deal.II/hp/dof_levels.h`.

The `DoFLevel<dim>` class stores, per geometric object of dimension
`structdim` on one level,
  * `active_fe_indices : std::vector<unsigned int>` - the finite-element
    variant assigned to each (cell) object,
  * `dof_offsets : std::vector<size_type>` - the start of each object's
    payload slice inside `dofs`, or the sentinel `invalid_dof_index`,
  * `dofs : std::vector<global_dof_index>` - the flat payload.

The accessor functions guard their work with `Assert` statements (active in
debug mode, aborting on violation).  We model each `Assert` as an error
return, in the exact textual order of the source, with the error names of
the specification's error taxonomy.  Machine integers are modelled as `Nat`;
the sentinel `numbers::invalid_dof_index` (the maximum of the unsigned
index type) is the concrete value `2 ^ 32 - 1`.  Unchecked C++
`operator[]` reads are modelled as `List.getD _ _ 0`, unchecked writes as
`List.set` (claims about their results carry in-range hypotheses).

The linked-list store for sub-cell objects lives in `hp/dof_objects.h`,
which is not part of the sources here; those operations are modelled from
the specification text and are clearly marked as such.
-/

namespace DealII

/-- `numbers::invalid_dof_index`: maximum value of the 32-bit unsigned
index type, used as the "no payload allocated" / "unassigned DoF"
sentinel. -/
def invalid_dof_index : Nat := 2 ^ 32 - 1

/-- `numbers::invalid_unsigned_int`: maximum of `unsigned int`. -/
def invalid_unsigned_int : Nat := 2 ^ 32 - 1

/-- Modelled from the spec: `UNSPECIFIED_VARIANT`, the distinguished
variant sentinel meaning "no variant", rejected by every accessor.  In the
C++ source this is `hp::DoFHandler<dimm,spacedim>::default_fe_index`
(declared in `hp/dof_handler.h`, not among the sources), numerically
`numbers::invalid_unsigned_int`. -/
def default_fe_index : Nat := invalid_unsigned_int

/-- Modelled from the spec: `TERM`, the end-of-list marker inside a
sub-cell payload slice; numerically equal to `invalid_dof_index`. -/
def TERM : Nat := invalid_dof_index

/-- The part of the finite-element collection the store consults: for each
variant `v` (a position in the collection), the number of DoFs it places on
objects of the store's dimension `structdim`
(`get_fe()[v].n_dofs_per_object<dim>()`). -/
structure FECollection where
  dofs_per_object : List Nat
deriving DecidableEq, Repr

/-- `dof_handler.get_fe().size()`, the number of variants. -/
def FECollection.size (fe : FECollection) : Nat := fe.dofs_per_object.length

/-- `k_v`: the DoFs-per-object count of variant `v` at the store's
dimension. -/
def FECollection.k (fe : FECollection) (v : Nat) : Nat :=
  fe.dofs_per_object.getD v 0

/-- The error taxonomy of the specification; each accessor surfaces the
`Assert` it trips as one of these. -/
inductive DoFError where
  | unspecifiedVariant
  | variantOutOfRange
  | localSlotOutOfRange
  | objectIndexOutOfRange
  | noDoFsHere
  | wrongVariant
  | variantNotOnObject
  | indexOutOfRange
  | internalError
deriving DecidableEq, Repr

/-- The data members of `internal::hp::DoFLevel<dim>`. -/
structure DoFLevel where
  active_fe_indices : List Nat
  dof_offsets : List Nat
  dofs : List Nat
deriving DecidableEq, Repr

/-- `DoFLevel<dim>::get_dof_index` (dof_levels.h:270-310).  The `Assert`
statements appear as error returns in source order; the final line is
`return dofs[dof_offsets[obj_index]+local_index]`. -/
def get_dof_index (fe : FECollection) (lvl : DoFLevel)
    (obj_index fe_index local_index obj_level : Nat) : Except DoFError Nat :=
  if fe_index = default_fe_index then .error .unspecifiedVariant
  else if ¬ fe_index < fe.size then .error .variantOutOfRange
  else if ¬ local_index < fe.k fe_index then .error .localSlotOutOfRange
  else if ¬ obj_index < lvl.dof_offsets.length then .error .objectIndexOutOfRange
  else if lvl.dof_offsets.getD obj_index 0 = invalid_dof_index then .error .noDoFsHere
  else if ¬ fe_index = lvl.active_fe_indices.getD obj_index 0 then .error .wrongVariant
  else .ok (lvl.dofs.getD (lvl.dof_offsets.getD obj_index 0 + local_index) 0)

/-- `DoFLevel<dim>::set_dof_index` (dof_levels.h:314-355).  Same guard
sequence as `get_dof_index`; the final line is
`dofs[dof_offsets[obj_index]+local_index] = global_index`. -/
def set_dof_index (fe : FECollection) (lvl : DoFLevel)
    (obj_index fe_index local_index global_index obj_level : Nat) :
    Except DoFError DoFLevel :=
  if fe_index = default_fe_index then .error .unspecifiedVariant
  else if ¬ fe_index < fe.size then .error .variantOutOfRange
  else if ¬ local_index < fe.k fe_index then .error .localSlotOutOfRange
  else if ¬ obj_index < lvl.dof_offsets.length then .error .objectIndexOutOfRange
  else if lvl.dof_offsets.getD obj_index 0 = invalid_dof_index then .error .noDoFsHere
  else if ¬ fe_index = lvl.active_fe_indices.getD obj_index 0 then .error .wrongVariant
  else .ok { lvl with
             dofs := lvl.dofs.set
               (lvl.dof_offsets.getD obj_index 0 + local_index) global_index }

/-- `DoFLevel<dim>::n_active_fe_indices` (dof_levels.h:359-385): `0` when
the object's offset is the sentinel, else `1` (this store holds one DoF
block per object). -/
def n_active_fe_indices (fe : FECollection) (lvl : DoFLevel)
    (obj_index : Nat) : Except DoFError Nat :=
  if ¬ obj_index < lvl.dof_offsets.length then .error .objectIndexOutOfRange
  else if lvl.dof_offsets.getD obj_index 0 = invalid_dof_index then .ok 0
  else .ok 1

/-- `DoFLevel<dim>::nth_active_fe_index` (dof_levels.h:389-422): asserts
the object is allocated and `n == 0`, then returns
`active_fe_indices[obj_index]`. -/
def nth_active_fe_index (fe : FECollection) (lvl : DoFLevel)
    (obj_level obj_index n : Nat) : Except DoFError Nat :=
  if ¬ obj_index < lvl.dof_offsets.length then .error .objectIndexOutOfRange
  else if lvl.dof_offsets.getD obj_index 0 = invalid_dof_index then .error .noDoFsHere
  else if ¬ n = 0 then .error .indexOutOfRange
  else .ok (lvl.active_fe_indices.getD obj_index 0)

/-- `DoFLevel<dim>::fe_index_is_active` (dof_levels.h:426-460): after the
guards, returns `fe_index == active_fe_indices[obj_index]`. -/
def fe_index_is_active (fe : FECollection) (lvl : DoFLevel)
    (obj_index fe_index obj_level : Nat) : Except DoFError Bool :=
  if ¬ obj_index < lvl.dof_offsets.length then .error .objectIndexOutOfRange
  else if fe_index = default_fe_index then .error .unspecifiedVariant
  else if ¬ fe_index < fe.size then .error .variantOutOfRange
  else if lvl.dof_offsets.getD obj_index 0 = invalid_dof_index then .error .noDoFsHere
  else if ¬ obj_index < lvl.active_fe_indices.length then .error .internalError
  else .ok (decide (fe_index = lvl.active_fe_indices.getD obj_index 0))

/-!
## Sub-cell objects: the linked-list store

The store for objects of dimension below the cell dimension lives in
`hp/dof_objects.h`, which is not among the sources of this repository; the
operations below are modelled from the specification (spec §4.1, sub-cell
case, and §4.2).  A sub-cell payload slice is a sequence of records
`(v_1, d_(1,1), ..., d_(1,k_1), v_2, ..., TERM)`.
-/

/-- Modelled from the spec: the lookup walk of §4.1.  Starting at `cursor`
inside `dofs`, read the variant id `v_j` there; `TERM` means the requested
variant is absent (*VariantNotOnObject*); a match returns the start of the
matched record's DoF block (`cursor + 1`); otherwise the cursor advances by
`1 + k` of the variant read. -/
def subcell_locate (fe : FECollection) (dofs : List Nat) (v : Nat)
    (cursor : Nat) : Except DoFError Nat :=
  if h : dofs.getD cursor TERM = TERM then .error .variantNotOnObject
  else if dofs.getD cursor TERM = v then .ok (cursor + 1)
  else subcell_locate fe dofs v (cursor + 1 + fe.k (dofs.getD cursor TERM))
termination_by dofs.length - cursor
decreasing_by
  have hc : cursor < dofs.length := by
    by_contra hcon
    exact h (List.getD_eq_default _ _ (Nat.le_of_not_lt hcon))
  omega

/-- Modelled from the spec: the sequence of variant ids carried by the
linked list starting at `cursor`, in stored order, not counting `TERM`. -/
def subcell_variant_list (fe : FECollection) (dofs : List Nat)
    (cursor : Nat) : List Nat :=
  if h : dofs.getD cursor TERM = TERM then []
  else dofs.getD cursor TERM ::
    subcell_variant_list fe dofs (cursor + 1 + fe.k (dofs.getD cursor TERM))
termination_by dofs.length - cursor
decreasing_by
  have hc : cursor < dofs.length := by
    by_contra hcon
    exact h (List.getD_eq_default _ _ (Nat.le_of_not_lt hcon))
  omega

/-- Modelled from the spec: `get_dof_index` on a sub-cell store
(`offsets`, `dofs`): the validity guards of §4.1, then the lookup walk,
then a read at `block + ℓ`. -/
def subcell_get_dof_index (fe : FECollection) (offsets dofs : List Nat)
    (obj_index fe_index local_index : Nat) : Except DoFError Nat :=
  if fe_index = default_fe_index then .error .unspecifiedVariant
  else if ¬ fe_index < fe.size then .error .variantOutOfRange
  else if ¬ local_index < fe.k fe_index then .error .localSlotOutOfRange
  else if ¬ obj_index < offsets.length then .error .objectIndexOutOfRange
  else if offsets.getD obj_index 0 = invalid_dof_index then .error .noDoFsHere
  else
    match subcell_locate fe dofs fe_index (offsets.getD obj_index 0) with
    | .error e => .error e
    | .ok block => .ok (dofs.getD (block + local_index) 0)

/-- Modelled from the spec: `set_dof_index` on a sub-cell store; same
guards and walk as the sub-cell get, then an assignment at `block + ℓ`. -/
def subcell_set_dof_index (fe : FECollection) (offsets dofs : List Nat)
    (obj_index fe_index local_index global_index : Nat) :
    Except DoFError (List Nat) :=
  if fe_index = default_fe_index then .error .unspecifiedVariant
  else if ¬ fe_index < fe.size then .error .variantOutOfRange
  else if ¬ local_index < fe.k fe_index then .error .localSlotOutOfRange
  else if ¬ obj_index < offsets.length then .error .objectIndexOutOfRange
  else if offsets.getD obj_index 0 = invalid_dof_index then .error .noDoFsHere
  else
    match subcell_locate fe dofs fe_index (offsets.getD obj_index 0) with
    | .error e => .error e
    | .ok block => .ok (dofs.set (block + local_index) global_index)

/-- Modelled from the spec: `n_active_fe_indices` on a sub-cell store -
`0` when the offset is the sentinel, else the length of the linked list,
not counting `TERM`. -/
def subcell_n_active_fe_indices (fe : FECollection) (offsets dofs : List Nat)
    (obj_index : Nat) : Except DoFError Nat :=
  if ¬ obj_index < offsets.length then .error .objectIndexOutOfRange
  else if offsets.getD obj_index 0 = invalid_dof_index then .ok 0
  else .ok (subcell_variant_list fe dofs (offsets.getD obj_index 0)).length

/-- Modelled from the spec: `nth_active_fe_index` on a sub-cell store -
the `n`-th variant id in stored order; *IndexOutOfRange* when `n` is not
below the list length, *NoDoFsHere* when unallocated. -/
def subcell_nth_active_fe_index (fe : FECollection) (offsets dofs : List Nat)
    (obj_index n : Nat) : Except DoFError Nat :=
  if ¬ obj_index < offsets.length then .error .objectIndexOutOfRange
  else if offsets.getD obj_index 0 = invalid_dof_index then .error .noDoFsHere
  else if ¬ n < (subcell_variant_list fe dofs (offsets.getD obj_index 0)).length
    then .error .indexOutOfRange
  else .ok ((subcell_variant_list fe dofs (offsets.getD obj_index 0)).getD n 0)

/-- Modelled from the spec: `fe_index_is_active` on a sub-cell store -
true iff the variant appears among the variant ids of the object's linked
list. -/
def subcell_fe_index_is_active (fe : FECollection) (offsets dofs : List Nat)
    (obj_index fe_index : Nat) : Except DoFError Bool :=
  if ¬ obj_index < offsets.length then .error .objectIndexOutOfRange
  else if fe_index = default_fe_index then .error .unspecifiedVariant
  else if ¬ fe_index < fe.size then .error .variantOutOfRange
  else if offsets.getD obj_index 0 = invalid_dof_index then .error .noDoFsHere
  else .ok (decide
    (fe_index ∈ subcell_variant_list fe dofs (offsets.getD obj_index 0)))

/-!
## Layout of a well-formed sub-cell slice

`slice_of recs` is the payload slice encoding the records `recs`, each a
pair of a variant id and its DoF block, terminated by `TERM` (spec §3,
invariant 3).  The lemmas below characterise the walk on a slice embedded
at an arbitrary position of the payload array.
-/

/-- The encoded slice of a record list: each record contributes its
variant id followed by its block, and the slice ends with `TERM`. -/
def slice_of (recs : List (Nat × List Nat)) : List Nat :=
  match recs with
  | [] => [TERM]
  | (v, b) :: rest => (v :: b) ++ slice_of rest

/-- Well-formedness of a record list against the collection: variant ids
are not the sentinel, are in range, and each block has exactly the
variant's DoFs-per-object count. -/
def wf_records (fe : FECollection) (recs : List (Nat × List Nat)) : Prop :=
  ∀ r ∈ recs, r.1 ≠ TERM ∧ r.1 < fe.size ∧ r.2.length = fe.k r.1

/-- The number of payload cells the records `recs` occupy before the
terminator: one variant-id cell plus the block for each record. -/
def rec_weight (recs : List (Nat × List Nat)) : Nat :=
  (recs.map (fun r => 1 + r.2.length)).sum

/-!
## Helper lemmas
-/

theorem getD_middle (pre rest : List Nat) (x d : Nat) :
    (pre ++ x :: rest).getD pre.length d = x := by
  rw [List.getD_append_right pre (x :: rest) d pre.length (Nat.le_refl _)]
  simp

theorem getD_set_same (l : List Nat) (n a : Nat) (h : n < l.length) :
    (l.set n a).getD n 0 = a := by
  simp [List.getD_eq_getElem?_getD, List.getElem?_set_self h]

theorem getD_set_ne (l : List Nat) (m n a : Nat) (h : m ≠ n) :
    (l.set m a).getD n 0 = l.getD n 0 := by
  simp [List.getD_eq_getElem?_getD, List.getElem?_set_ne h]

theorem wf_records_of_cons {fe : FECollection} {r : Nat × List Nat}
    {rest : List (Nat × List Nat)} (h : wf_records fe (r :: rest)) :
    wf_records fe rest :=
  fun q hq => h q (List.mem_cons_of_mem _ hq)

theorem layout_read_head (pre suf b : List Nat) (v : Nat)
    (rest : List (Nat × List Nat)) :
    (pre ++ slice_of ((v, b) :: rest) ++ suf).getD pre.length TERM = v := by
  rw [slice_of]
  simp only [List.cons_append, List.append_assoc]
  exact getD_middle pre _ v TERM

theorem layout_step (pre suf b : List Nat) (v : Nat)
    (rest : List (Nat × List Nat)) :
    pre ++ slice_of ((v, b) :: rest) ++ suf
      = (pre ++ v :: b) ++ slice_of rest ++ suf := by
  rw [slice_of]
  simp [List.append_assoc]

/-- On a well-formed slice, the variant-list walk recovers exactly the
variant ids of the records, in order. -/
theorem subcell_variant_list_layout (fe : FECollection) :
    ∀ (recs : List (Nat × List Nat)) (pre suf : List Nat),
      wf_records fe recs →
      subcell_variant_list fe (pre ++ slice_of recs ++ suf) pre.length
        = recs.map Prod.fst := by
  intro recs
  induction recs with
  | nil =>
    intro pre suf _
    rw [subcell_variant_list, dif_pos]
    · rfl
    · show (pre ++ [TERM] ++ suf).getD pre.length TERM = TERM
      rw [List.append_assoc]
      exact getD_middle pre suf TERM TERM
  | cons r rest ih =>
    obtain ⟨v, b⟩ := r
    intro pre suf hwf
    have hr := hwf (v, b) (List.mem_cons_self _ _)
    have hread := layout_read_head pre suf b v rest
    rw [subcell_variant_list, dif_neg (by rw [hread]; exact hr.1)]
    rw [hread]
    have hcur : pre.length + 1 + fe.k v = (pre ++ v :: b).length := by
      simp [List.length_append, ← hr.2.2]
      omega
    rw [hcur, layout_step pre suf b v rest,
      ih (pre ++ v :: b) suf (wf_records_of_cons hwf)]
    simp

/-- On a well-formed slice that does not carry `v`, the lookup walk ends at
`TERM` and reports *VariantNotOnObject*. -/
theorem subcell_locate_notfound (fe : FECollection) (v : Nat) :
    ∀ (recs : List (Nat × List Nat)) (pre suf : List Nat),
      wf_records fe recs → v ∉ recs.map Prod.fst →
      subcell_locate fe (pre ++ slice_of recs ++ suf) v pre.length
        = .error .variantNotOnObject := by
  intro recs
  induction recs with
  | nil =>
    intro pre suf _ _
    rw [subcell_locate, dif_pos]
    show (pre ++ [TERM] ++ suf).getD pre.length TERM = TERM
    rw [List.append_assoc]
    exact getD_middle pre suf TERM TERM
  | cons r rest ih =>
    obtain ⟨v1, b1⟩ := r
    intro pre suf hwf hv
    have hr := hwf (v1, b1) (List.mem_cons_self _ _)
    have hread := layout_read_head pre suf b1 v1 rest
    have hne : v1 ≠ v := by
      intro hcon
      exact hv (by simp [hcon])
    rw [subcell_locate, dif_neg (by rw [hread]; exact hr.1)]
    rw [if_neg (by rw [hread]; exact hne)]
    rw [hread]
    have hcur : pre.length + 1 + fe.k v1 = (pre ++ v1 :: b1).length := by
      simp [List.length_append, ← hr.2.2]
      omega
    rw [hcur, layout_step pre suf b1 v1 rest]
    exact ih (pre ++ v1 :: b1) suf (wf_records_of_cons hwf)
      (fun hmem => hv (by simp at hmem ⊢; exact Or.inr hmem))

/-- On a well-formed slice carrying `v` (first occurrence after the record
list `r1`), the lookup walk returns the start of `v`'s DoF block: the
cursor has skipped `1 + k` cells for each earlier record and one cell for
`v`'s own variant id. -/
theorem subcell_locate_found (fe : FECollection) (v : Nat) (b : List Nat) :
    ∀ (r1 r2 : List (Nat × List Nat)) (pre suf : List Nat),
      wf_records fe (r1 ++ (v, b) :: r2) → v ∉ r1.map Prod.fst →
      subcell_locate fe (pre ++ slice_of (r1 ++ (v, b) :: r2) ++ suf) v
          pre.length
        = .ok (pre.length + rec_weight r1 + 1) := by
  intro r1
  induction r1 with
  | nil =>
    intro r2 pre suf hwf _
    have hr := hwf (v, b) (by simp)
    have hread := layout_read_head pre suf b v r2
    rw [List.nil_append]
    rw [subcell_locate, dif_neg (by rw [hread]; exact hr.1)]
    rw [if_pos (by rw [hread])]
    simp [rec_weight]
  | cons r rest ih =>
    obtain ⟨v1, b1⟩ := r
    intro r2 pre suf hwf hv
    have hr := hwf (v1, b1) (List.mem_cons_self _ _)
    have hread := layout_read_head pre suf b1 v1 (rest ++ (v, b) :: r2)
    have hne : v1 ≠ v := by
      intro hcon
      exact hv (by simp [hcon])
    rw [List.cons_append] at *
    rw [subcell_locate, dif_neg (by rw [hread]; exact hr.1)]
    rw [if_neg (by rw [hread]; exact hne)]
    rw [hread]
    have hcur : pre.length + 1 + fe.k v1 = (pre ++ v1 :: b1).length := by
      simp [List.length_append, ← hr.2.2]
      omega
    rw [hcur, layout_step pre suf b1 v1 (rest ++ (v, b) :: r2)]
    rw [ih r2 (pre ++ v1 :: b1) suf (wf_records_of_cons hwf)
      (fun hmem => hv (by simp at hmem ⊢; exact Or.inr hmem))]
    have : (pre ++ v1 :: b1).length + rec_weight rest + 1
        = pre.length + rec_weight ((v1, b1) :: rest) + 1 := by
      simp [List.length_append, rec_weight]
      omega
    rw [this]

/-!
## Concrete stores used by the witnesses

`fe_c` / `lvl_c` is scenario A of the spec: three variants placing 2, 3
and 1 DoFs per object, three cell objects with variants `[0, 1, 0]`,
offsets `[0, 2, 5]`, populated payload.  `fe_s` / `offsets_s` / `dofs_s`
is a sub-cell store whose single object carries variants 3 and 7.
-/

def fe_c : FECollection := ⟨[2, 3, 1]⟩

def lvl_c : DoFLevel :=
  { active_fe_indices := [0, 1, 0]
    dof_offsets := [0, 2, 5]
    dofs := [100, 101, 200, 201, 202, 300, 301] }

def fe_s : FECollection := ⟨[1, 1, 1, 2, 1, 1, 1, 1]⟩

def offsets_s : List Nat := [0]

def dofs_s : List Nat := [3, 10, 11, 7, 20, TERM]

/-- An unallocated one-object store over `fe_c`. -/
def lvl_empty : DoFLevel :=
  { active_fe_indices := [0]
    dof_offsets := [invalid_dof_index]
    dofs := [] }

/-!
## Claims
-/

/-- C1: for every object `i`, variant `v` and local slot `l` such that the
store's preconditions hold (the object's slice is allocated, `v` is the
variant carried by object `i`, and `l` is below the DoFs-per-object count
of `v`), `set_dof_index(i, v, l, g)` followed by `get_dof_index(i, v, l)`
returns `g`. -/
theorem C1_set_get_roundtrip (fe : FECollection) (lvl : DoFLevel)
    (i v l g L : Nat)
    (hv0 : v ≠ default_fe_index) (hv1 : v < fe.size)
    (hl : l < fe.k v)
    (hi : i < lvl.dof_offsets.length)
    (halloc : lvl.dof_offsets.getD i 0 ≠ invalid_dof_index)
    (hact : v = lvl.active_fe_indices.getD i 0)
    (hslice : lvl.dof_offsets.getD i 0 + fe.k v ≤ lvl.dofs.length) :
    ∃ lvl', set_dof_index fe lvl i v l g L = .ok lvl' ∧
      get_dof_index fe lvl' i v l L = .ok g := by
  refine ⟨{ lvl with dofs := lvl.dofs.set (lvl.dof_offsets.getD i 0 + l) g },
    ?_, ?_⟩
  · unfold set_dof_index
    rw [if_neg hv0, if_neg (not_not_intro hv1), if_neg (not_not_intro hl),
      if_neg (not_not_intro hi), if_neg halloc, if_neg (not_not_intro hact)]
  · have hidx : lvl.dof_offsets.getD i 0 + l < lvl.dofs.length := by omega
    unfold get_dof_index
    dsimp only
    rw [if_neg hv0, if_neg (not_not_intro hv1), if_neg (not_not_intro hl),
      if_neg (not_not_intro hi), if_neg halloc, if_neg (not_not_intro hact),
      getD_set_same _ _ _ hidx]

theorem C1_witness :
    ∃ lvl', set_dof_index fe_c lvl_c 1 1 2 777 0 = .ok lvl' ∧
      get_dof_index fe_c lvl' 1 1 2 0 = .ok 777 :=
  C1_set_get_roundtrip fe_c lvl_c 1 1 2 777 0 (by decide) (by decide)
    (by decide) (by decide) (by decide) (by decide) (by decide)

/-- C2: on an allocated cell object, `get_dof_index(i, v, l)` returns
`dofs[offsets[i] + l]` when `v` equals `active[i]`, and fails with
*WrongVariant* otherwise, given `l` below the DoFs-per-object count of
`v`. -/
theorem C2_get_translation (fe : FECollection) (lvl : DoFLevel)
    (i v l L : Nat)
    (hv0 : v ≠ default_fe_index) (hv1 : v < fe.size)
    (hl : l < fe.k v)
    (hi : i < lvl.dof_offsets.length)
    (halloc : lvl.dof_offsets.getD i 0 ≠ invalid_dof_index) :
    (v = lvl.active_fe_indices.getD i 0 →
      get_dof_index fe lvl i v l L
        = .ok (lvl.dofs.getD (lvl.dof_offsets.getD i 0 + l) 0)) ∧
    (v ≠ lvl.active_fe_indices.getD i 0 →
      get_dof_index fe lvl i v l L = .error .wrongVariant) := by
  constructor
  · intro hact
    unfold get_dof_index
    rw [if_neg hv0, if_neg (not_not_intro hv1), if_neg (not_not_intro hl),
      if_neg (not_not_intro hi), if_neg halloc, if_neg (not_not_intro hact)]
  · intro hact
    unfold get_dof_index
    rw [if_neg hv0, if_neg (not_not_intro hv1), if_neg (not_not_intro hl),
      if_neg (not_not_intro hi), if_neg halloc, if_pos hact]

theorem C2_witness :
    get_dof_index fe_c lvl_c 1 1 2 0 = .ok 202 ∧
    get_dof_index fe_c lvl_c 1 0 1 0 = .error .wrongVariant :=
  ⟨(C2_get_translation fe_c lvl_c 1 1 2 0 (by decide) (by decide) (by decide)
      (by decide) (by decide)).1 (by decide),
   (C2_get_translation fe_c lvl_c 1 0 1 0 (by decide) (by decide) (by decide)
      (by decide) (by decide)).2 (by decide)⟩

/-- C7: calling `set_dof_index` or `get_dof_index` with the variant equal
to `UNSPECIFIED_VARIANT` (the `default_fe_index` sentinel) fails with
*UnspecifiedVariant*, whatever the state of the store. -/
theorem C7_unspecified_variant_rejected (fe : FECollection) (lvl : DoFLevel)
    (i l g L : Nat) :
    set_dof_index fe lvl i default_fe_index l g L
        = .error .unspecifiedVariant ∧
    get_dof_index fe lvl i default_fe_index l L
        = .error .unspecifiedVariant := by
  constructor <;> simp [set_dof_index, get_dof_index]

/-- C8: on an allocated object carrying variant `v` with DoFs-per-object
count `k`, writing at local slot `k` fails with *LocalSlotOutOfRange*,
writing at `k - 1` succeeds (when `k ≥ 1`), and no call with slot below
`k` can fail with *LocalSlotOutOfRange*. -/
theorem C8_local_slot_boundary (fe : FECollection) (lvl : DoFLevel)
    (i v g L : Nat)
    (hv0 : v ≠ default_fe_index) (hv1 : v < fe.size)
    (hi : i < lvl.dof_offsets.length)
    (halloc : lvl.dof_offsets.getD i 0 ≠ invalid_dof_index)
    (hact : v = lvl.active_fe_indices.getD i 0)
    (hk : 1 ≤ fe.k v) :
    set_dof_index fe lvl i v (fe.k v) g L = .error .localSlotOutOfRange ∧
    (∃ lvl', set_dof_index fe lvl i v (fe.k v - 1) g L = .ok lvl') ∧
    (∀ l, l < fe.k v →
      set_dof_index fe lvl i v l g L ≠ .error .localSlotOutOfRange) := by
  refine ⟨?_, ?_, ?_⟩
  · unfold set_dof_index
    rw [if_neg hv0, if_neg (not_not_intro hv1), if_pos (Nat.lt_irrefl _)]
  · refine ⟨{ lvl with
      dofs := lvl.dofs.set (lvl.dof_offsets.getD i 0 + (fe.k v - 1)) g }, ?_⟩
    unfold set_dof_index
    rw [if_neg hv0, if_neg (not_not_intro hv1),
      if_neg (not_not_intro (Nat.sub_lt hk Nat.one_pos)),
      if_neg (not_not_intro hi), if_neg halloc, if_neg (not_not_intro hact)]
  · intro l hl
    unfold set_dof_index
    rw [if_neg hv0, if_neg (not_not_intro hv1), if_neg (not_not_intro hl)]
    split <;> simp

theorem C8_witness :
    set_dof_index fe_c lvl_c 1 1 3 777 0 = .error .localSlotOutOfRange ∧
    (∃ lvl', set_dof_index fe_c lvl_c 1 1 2 777 0 = .ok lvl') ∧
    (∀ l, l < fe_c.k 1 →
      set_dof_index fe_c lvl_c 1 1 l 777 0 ≠ .error .localSlotOutOfRange) :=
  C8_local_slot_boundary fe_c lvl_c 1 1 777 0 (by decide) (by decide)
    (by decide) (by decide) (by decide) (by decide)

/-- C10: the `obj_level` argument of `set_dof_index`, `get_dof_index`,
`nth_active_fe_index` and `fe_index_is_active` has no effect on the result
or on the store: two calls differing only in `obj_level` agree. -/
theorem C10_obj_level_irrelevant (fe : FECollection) (lvl : DoFLevel)
    (i v l g n L1 L2 : Nat) :
    set_dof_index fe lvl i v l g L1 = set_dof_index fe lvl i v l g L2 ∧
    get_dof_index fe lvl i v l L1 = get_dof_index fe lvl i v l L2 ∧
    nth_active_fe_index fe lvl L1 i n = nth_active_fe_index fe lvl L2 i n ∧
    fe_index_is_active fe lvl i v L1 = fe_index_is_active fe lvl i v L2 :=
  ⟨rfl, rfl, rfl, rfl⟩

/-- C9: a successful `set_dof_index(i, v, l, g)` changes only the payload
slot of its own triple: a read at any distinct valid triple `(i2, v2, l2)`
returns the same value before and after the write (slices of distinct
objects being disjoint, spec invariant 5), and no `set_dof_index` call
that succeeds changes `dof_offsets` or `active_fe_indices`. -/
theorem C9_frame (fe : FECollection) (lvl : DoFLevel)
    (i v l g L i2 v2 l2 : Nat)
    (hv0 : v ≠ default_fe_index) (hv1 : v < fe.size) (hl : l < fe.k v)
    (hi : i < lvl.dof_offsets.length)
    (halloc : lvl.dof_offsets.getD i 0 ≠ invalid_dof_index)
    (hact : v = lvl.active_fe_indices.getD i 0)
    (hw0 : v2 ≠ default_fe_index) (hw1 : v2 < fe.size) (hl2 : l2 < fe.k v2)
    (hi2 : i2 < lvl.dof_offsets.length)
    (halloc2 : lvl.dof_offsets.getD i2 0 ≠ invalid_dof_index)
    (hact2 : v2 = lvl.active_fe_indices.getD i2 0)
    (hdistinct : ¬ (i = i2 ∧ v = v2 ∧ l = l2))
    (hdisj : i ≠ i2 →
      lvl.dof_offsets.getD i 0 + fe.k v ≤ lvl.dof_offsets.getD i2 0 ∨
      lvl.dof_offsets.getD i2 0 + fe.k v2 ≤ lvl.dof_offsets.getD i 0) :
    (∃ lvl', set_dof_index fe lvl i v l g L = .ok lvl' ∧
      get_dof_index fe lvl' i2 v2 l2 L = get_dof_index fe lvl i2 v2 l2 L ∧
      lvl'.dof_offsets = lvl.dof_offsets ∧
      lvl'.active_fe_indices = lvl.active_fe_indices) ∧
    (∀ (fe3 : FECollection) (lvl0 : DoFLevel) (a b c d e : Nat)
      (lvl1 : DoFLevel),
      set_dof_index fe3 lvl0 a b c d e = .ok lvl1 →
      lvl1.dof_offsets = lvl0.dof_offsets ∧
      lvl1.active_fe_indices = lvl0.active_fe_indices) := by
  have hne : lvl.dof_offsets.getD i 0 + l ≠ lvl.dof_offsets.getD i2 0 + l2 := by
    by_cases hii : i = i2
    · subst hii
      have hvv : v = v2 := by rw [hact, hact2]
      have hll : l ≠ l2 := fun hcon => hdistinct ⟨rfl, hvv, hcon⟩
      omega
    · rcases hdisj hii with h | h <;> omega
  have hread : ∀ ds : List Nat,
      get_dof_index fe { lvl with dofs := ds } i2 v2 l2 L
        = .ok (ds.getD (lvl.dof_offsets.getD i2 0 + l2) 0) := by
    intro ds
    unfold get_dof_index
    dsimp only
    rw [if_neg hw0, if_neg (not_not_intro hw1), if_neg (not_not_intro hl2),
      if_neg (not_not_intro hi2), if_neg halloc2, if_neg (not_not_intro hact2)]
  constructor
  · refine ⟨{ lvl with dofs := lvl.dofs.set (lvl.dof_offsets.getD i 0 + l) g },
      ?_, ?_, rfl, rfl⟩
    · unfold set_dof_index
      rw [if_neg hv0, if_neg (not_not_intro hv1), if_neg (not_not_intro hl),
        if_neg (not_not_intro hi), if_neg halloc, if_neg (not_not_intro hact)]
    · have h2 : get_dof_index fe lvl i2 v2 l2 L
          = .ok (lvl.dofs.getD (lvl.dof_offsets.getD i2 0 + l2) 0) :=
        hread lvl.dofs
      rw [hread _, h2, getD_set_ne _ _ _ _ hne]
  · intro fe3 lvl0 a b c d e lvl1 hok
    unfold set_dof_index at hok
    split at hok
    · exact absurd hok (by simp)
    · split at hok
      · exact absurd hok (by simp)
      · split at hok
        · exact absurd hok (by simp)
        · split at hok
          · exact absurd hok (by simp)
          · split at hok
            · exact absurd hok (by simp)
            · split at hok
              · exact absurd hok (by simp)
              · cases hok
                exact ⟨rfl, rfl⟩

theorem C9_witness :
    ∃ lvl', set_dof_index fe_c lvl_c 1 1 2 777 0 = .ok lvl' ∧
      get_dof_index fe_c lvl' 0 0 1 0 = get_dof_index fe_c lvl_c 0 0 1 0 ∧
      lvl'.dof_offsets = lvl_c.dof_offsets ∧
      lvl'.active_fe_indices = lvl_c.active_fe_indices :=
  (C9_frame fe_c lvl_c 1 1 2 777 0 0 0 1 (by decide) (by decide) (by decide)
    (by decide) (by decide) (by decide) (by decide) (by decide) (by decide)
    (by decide) (by decide) (by decide) (by decide) (by decide)).1

/-- C3: on an allocated sub-cell object the accessors locate the requested
variant by the linked-list scan: `TERM` at the cursor fails with
*VariantNotOnObject*; a match reads or assigns the DoF at
`cursor + 1 + l`; otherwise the cursor advances by `1 + k` of the variant
read and the scan repeats.  On an object carrying variants `{3, 7}`,
reading variant `5` fails with *VariantNotOnObject* and reading variant
`7` succeeds. -/
theorem C3_subcell_scan :
    (∀ (fe : FECollection) (dofs : List Nat) (v cursor : Nat),
      (dofs.getD cursor TERM = TERM →
        subcell_locate fe dofs v cursor = .error .variantNotOnObject) ∧
      (dofs.getD cursor TERM = v → v ≠ TERM →
        subcell_locate fe dofs v cursor = .ok (cursor + 1)) ∧
      (dofs.getD cursor TERM ≠ TERM → dofs.getD cursor TERM ≠ v →
        subcell_locate fe dofs v cursor
          = subcell_locate fe dofs v
              (cursor + 1 + fe.k (dofs.getD cursor TERM)))) ∧
    (∀ (fe : FECollection) (offsets dofs : List Nat) (i v l g block : Nat),
      v ≠ default_fe_index → v < fe.size → l < fe.k v →
      i < offsets.length → offsets.getD i 0 ≠ invalid_dof_index →
      subcell_locate fe dofs v (offsets.getD i 0) = .ok block →
      subcell_get_dof_index fe offsets dofs i v l
          = .ok (dofs.getD (block + l) 0) ∧
      subcell_set_dof_index fe offsets dofs i v l g
          = .ok (dofs.set (block + l) g)) ∧
    (∀ (fe : FECollection) (offsets dofs : List Nat) (i v l g : Nat),
      v ≠ default_fe_index → v < fe.size → l < fe.k v →
      i < offsets.length → offsets.getD i 0 ≠ invalid_dof_index →
      subcell_locate fe dofs v (offsets.getD i 0)
          = .error .variantNotOnObject →
      subcell_get_dof_index fe offsets dofs i v l
          = .error .variantNotOnObject ∧
      subcell_set_dof_index fe offsets dofs i v l g
          = .error .variantNotOnObject) ∧
    subcell_get_dof_index fe_s offsets_s dofs_s 0 5 0
        = .error .variantNotOnObject ∧
    subcell_get_dof_index fe_s offsets_s dofs_s 0 7 0 = .ok 20 := by
  refine ⟨?_, ?_, ?_, ?_, ?_⟩
  · intro fe dofs v cursor
    refine ⟨?_, ?_, ?_⟩
    · intro h
      rw [subcell_locate, dif_pos h]
    · intro hv hvT
      rw [subcell_locate, dif_neg (by rw [hv]; exact hvT), if_pos hv]
    · intro h1 h2
      rw [subcell_locate, dif_neg h1, if_neg h2]
  · intro fe offsets dofs i v l g block hv0 hv1 hl hi halloc hloc
    unfold subcell_get_dof_index subcell_set_dof_index
    rw [if_neg hv0, if_neg (not_not_intro hv1), if_neg (not_not_intro hl),
      if_neg (not_not_intro hi), if_neg halloc, hloc]
    rw [if_neg hv0, if_neg (not_not_intro hv1), if_neg (not_not_intro hl),
      if_neg (not_not_intro hi), if_neg halloc]
    exact ⟨rfl, rfl⟩
  · intro fe offsets dofs i v l g hv0 hv1 hl hi halloc hloc
    unfold subcell_get_dof_index subcell_set_dof_index
    rw [if_neg hv0, if_neg (not_not_intro hv1), if_neg (not_not_intro hl),
      if_neg (not_not_intro hi), if_neg halloc, hloc]
    rw [if_neg hv0, if_neg (not_not_intro hv1), if_neg (not_not_intro hl),
      if_neg (not_not_intro hi), if_neg halloc]
    exact ⟨rfl, rfl⟩
  · simp [subcell_get_dof_index, subcell_locate, fe_s, offsets_s, dofs_s,
      TERM, invalid_dof_index, default_fe_index, invalid_unsigned_int,
      FECollection.k, FECollection.size]
  · simp [subcell_get_dof_index, subcell_locate, fe_s, offsets_s, dofs_s,
      TERM, invalid_dof_index, default_fe_index, invalid_unsigned_int,
      FECollection.k, FECollection.size]

theorem C3_witness :
    subcell_locate fe_s dofs_s 7 3 = .ok 4 ∧
    subcell_get_dof_index fe_s offsets_s dofs_s 0 5 0
        = .error .variantNotOnObject ∧
    subcell_get_dof_index fe_s offsets_s dofs_s 0 7 0 = .ok 20 :=
  ⟨(C3_subcell_scan.1 fe_s dofs_s 7 3).2.1 (by decide) (by decide),
   C3_subcell_scan.2.2.2.1, C3_subcell_scan.2.2.2.2⟩

/-- C4: `n_active_fe_indices(i)` returns `0` iff `offsets[i]` holds the
sentinel; for an allocated cell object it returns exactly `1`; for an
allocated sub-cell object it returns the number of records of its linked
list, not counting `TERM` (and `0` when the sub-cell object is
unallocated). -/
theorem C4_n_active_count :
    (∀ (fe : FECollection) (lvl : DoFLevel) (i : Nat),
      i < lvl.dof_offsets.length →
      (n_active_fe_indices fe lvl i = .ok 0 ↔
        lvl.dof_offsets.getD i 0 = invalid_dof_index)) ∧
    (∀ (fe : FECollection) (lvl : DoFLevel) (i : Nat),
      i < lvl.dof_offsets.length →
      lvl.dof_offsets.getD i 0 ≠ invalid_dof_index →
      n_active_fe_indices fe lvl i = .ok 1) ∧
    (∀ (fe : FECollection) (offsets pre suf : List Nat)
      (recs : List (Nat × List Nat)) (j : Nat),
      j < offsets.length → wf_records fe recs →
      offsets.getD j 0 = pre.length → pre.length ≠ invalid_dof_index →
      subcell_n_active_fe_indices fe offsets (pre ++ slice_of recs ++ suf) j
        = .ok recs.length) ∧
    (∀ (fe : FECollection) (offsets dofs : List Nat) (j : Nat),
      j < offsets.length → offsets.getD j 0 = invalid_dof_index →
      subcell_n_active_fe_indices fe offsets dofs j = .ok 0) := by
  refine ⟨?_, ?_, ?_, ?_⟩
  · intro fe lvl i hi
    unfold n_active_fe_indices
    rw [if_neg (not_not_intro hi)]
    by_cases hs : lvl.dof_offsets.getD i 0 = invalid_dof_index
    · rw [if_pos hs]
      exact iff_of_true rfl hs
    · rw [if_neg hs]
      exact iff_of_false (by simp) hs
  · intro fe lvl i hi hs
    unfold n_active_fe_indices
    rw [if_neg (not_not_intro hi), if_neg hs]
  · intro fe offsets pre suf recs j hj hwf hoff hns
    unfold subcell_n_active_fe_indices
    rw [if_neg (not_not_intro hj), if_neg (by rw [hoff]; exact hns), hoff,
      subcell_variant_list_layout fe recs pre suf hwf]
    simp
  · intro fe offsets dofs j hj hs
    unfold subcell_n_active_fe_indices
    rw [if_neg (not_not_intro hj), if_pos hs]

theorem C4_witness :
    (n_active_fe_indices fe_c lvl_empty 0 = .ok 0 ↔
      lvl_empty.dof_offsets.getD 0 0 = invalid_dof_index) ∧
    n_active_fe_indices fe_c lvl_c 1 = .ok 1 ∧
    subcell_n_active_fe_indices fe_s offsets_s dofs_s 0 = .ok 2 ∧
    subcell_n_active_fe_indices fe_s [invalid_dof_index] dofs_s 0 = .ok 0 := by
  refine ⟨C4_n_active_count.1 fe_c lvl_empty 0 (by decide),
    C4_n_active_count.2.1 fe_c lvl_c 1 (by decide) (by decide), ?_,
    C4_n_active_count.2.2.2 fe_s [invalid_dof_index] dofs_s 0 (by decide)
      (by decide)⟩
  exact C4_n_active_count.2.2.1 fe_s offsets_s [] []
    [(3, [10, 11]), (7, [20])] 0 (by decide)
    (by unfold wf_records; decide) (by decide) (by decide)

/-- C5: `fe_index_is_active(i, v)` is true iff `v` appears on the
allocated object `i` (cell store: `v` equals `active[i]`; sub-cell store:
`v` occurs among the variant ids of its linked list); it fails with
*NoDoFsHere* when the object is unallocated and with *VariantOutOfRange*
when `v` is not a valid variant id. -/
theorem C5_fe_index_is_active_iff :
    (∀ (fe : FECollection) (lvl : DoFLevel) (i v L : Nat),
      i < lvl.dof_offsets.length → i < lvl.active_fe_indices.length →
      v ≠ default_fe_index → v < fe.size →
      lvl.dof_offsets.getD i 0 ≠ invalid_dof_index →
      (fe_index_is_active fe lvl i v L = .ok true ↔
        v = lvl.active_fe_indices.getD i 0)) ∧
    (∀ (fe : FECollection) (lvl : DoFLevel) (i v L : Nat),
      i < lvl.dof_offsets.length → v ≠ default_fe_index → v < fe.size →
      lvl.dof_offsets.getD i 0 = invalid_dof_index →
      fe_index_is_active fe lvl i v L = .error .noDoFsHere) ∧
    (∀ (fe : FECollection) (lvl : DoFLevel) (i v L : Nat),
      i < lvl.dof_offsets.length → v ≠ default_fe_index → ¬ v < fe.size →
      fe_index_is_active fe lvl i v L = .error .variantOutOfRange) ∧
    (∀ (fe : FECollection) (offsets pre suf : List Nat)
      (recs : List (Nat × List Nat)) (j v : Nat),
      j < offsets.length → wf_records fe recs →
      offsets.getD j 0 = pre.length → pre.length ≠ invalid_dof_index →
      v ≠ default_fe_index → v < fe.size →
      (subcell_fe_index_is_active fe offsets (pre ++ slice_of recs ++ suf) j v
          = .ok true ↔ v ∈ recs.map Prod.fst)) ∧
    (∀ (fe : FECollection) (offsets dofs : List Nat) (j v : Nat),
      j < offsets.length → v ≠ default_fe_index → v < fe.size →
      offsets.getD j 0 = invalid_dof_index →
      subcell_fe_index_is_active fe offsets dofs j v
        = .error .noDoFsHere) ∧
    (∀ (fe : FECollection) (offsets dofs : List Nat) (j v : Nat),
      j < offsets.length → v ≠ default_fe_index → ¬ v < fe.size →
      subcell_fe_index_is_active fe offsets dofs j v
        = .error .variantOutOfRange) := by
  refine ⟨?_, ?_, ?_, ?_, ?_, ?_⟩
  · intro fe lvl i v L hi ha hv0 hv1 hs
    unfold fe_index_is_active
    rw [if_neg (not_not_intro hi), if_neg hv0, if_neg (not_not_intro hv1),
      if_neg hs, if_neg (not_not_intro ha)]
    simp
  · intro fe lvl i v L hi hv0 hv1 hs
    unfold fe_index_is_active
    rw [if_neg (not_not_intro hi), if_neg hv0, if_neg (not_not_intro hv1),
      if_pos hs]
  · intro fe lvl i v L hi hv0 hv1
    unfold fe_index_is_active
    rw [if_neg (not_not_intro hi), if_neg hv0, if_pos hv1]
  · intro fe offsets pre suf recs j v hj hwf hoff hns hv0 hv1
    unfold subcell_fe_index_is_active
    rw [if_neg (not_not_intro hj), if_neg hv0, if_neg (not_not_intro hv1),
      if_neg (by rw [hoff]; exact hns), hoff,
      subcell_variant_list_layout fe recs pre suf hwf]
    simp
  · intro fe offsets dofs j v hj hv0 hv1 hs
    unfold subcell_fe_index_is_active
    rw [if_neg (not_not_intro hj), if_neg hv0, if_neg (not_not_intro hv1),
      if_pos hs]
  · intro fe offsets dofs j v hj hv0 hv1
    unfold subcell_fe_index_is_active
    rw [if_neg (not_not_intro hj), if_neg hv0, if_pos hv1]

theorem C5_witness :
    (fe_index_is_active fe_c lvl_c 1 1 0 = .ok true ↔
      (1 : Nat) = lvl_c.active_fe_indices.getD 1 0) ∧
    fe_index_is_active fe_c lvl_empty 0 1 0 = .error .noDoFsHere ∧
    fe_index_is_active fe_c lvl_c 1 5 0 = .error .variantOutOfRange ∧
    (subcell_fe_index_is_active fe_s offsets_s dofs_s 0 7 = .ok true ↔
      (7 : Nat) ∈ [3, 7]) := by
  refine ⟨C5_fe_index_is_active_iff.1 fe_c lvl_c 1 1 0 (by decide) (by decide)
      (by decide) (by decide) (by decide),
    C5_fe_index_is_active_iff.2.1 fe_c lvl_empty 0 1 0 (by decide) (by decide)
      (by decide) (by decide),
    C5_fe_index_is_active_iff.2.2.1 fe_c lvl_c 1 5 0 (by decide) (by decide)
      (by decide), ?_⟩
  exact C5_fe_index_is_active_iff.2.2.2.1 fe_s offsets_s [] []
    [(3, [10, 11]), (7, [20])] 0 7 (by decide)
    (by unfold wf_records; decide) (by decide) (by decide) (by decide)
    (by decide)

/-- C6: `nth_active_fe_index(i, n)` returns the `n`-th variant id carried
by the allocated object in stored order, fails with *IndexOutOfRange* for
every `n` at or above `n_active_fe_indices(i)`, and with *NoDoFsHere* when
the object is unallocated (cell store and sub-cell store). -/
theorem C6_nth_active :
    (∀ (fe : FECollection) (lvl : DoFLevel) (L i : Nat),
      i < lvl.dof_offsets.length →
      lvl.dof_offsets.getD i 0 ≠ invalid_dof_index →
      nth_active_fe_index fe lvl L i 0 = .ok (lvl.active_fe_indices.getD i 0)
      ∧ ∀ n cnt, n_active_fe_indices fe lvl i = .ok cnt → cnt ≤ n →
        nth_active_fe_index fe lvl L i n = .error .indexOutOfRange) ∧
    (∀ (fe : FECollection) (lvl : DoFLevel) (L i n : Nat),
      i < lvl.dof_offsets.length →
      lvl.dof_offsets.getD i 0 = invalid_dof_index →
      nth_active_fe_index fe lvl L i n = .error .noDoFsHere) ∧
    (∀ (fe : FECollection) (offsets pre suf : List Nat)
      (recs : List (Nat × List Nat)) (j n : Nat),
      j < offsets.length → wf_records fe recs →
      offsets.getD j 0 = pre.length → pre.length ≠ invalid_dof_index →
      (n < recs.length →
        subcell_nth_active_fe_index fe offsets (pre ++ slice_of recs ++ suf)
            j n
          = .ok ((recs.map Prod.fst).getD n 0)) ∧
      (recs.length ≤ n →
        subcell_nth_active_fe_index fe offsets (pre ++ slice_of recs ++ suf)
            j n
          = .error .indexOutOfRange)) ∧
    (∀ (fe : FECollection) (offsets dofs : List Nat) (j n : Nat),
      j < offsets.length → offsets.getD j 0 = invalid_dof_index →
      subcell_nth_active_fe_index fe offsets dofs j n
        = .error .noDoFsHere) := by
  refine ⟨?_, ?_, ?_, ?_⟩
  · intro fe lvl L i hi hs
    constructor
    · unfold nth_active_fe_index
      rw [if_neg (not_not_intro hi), if_neg hs,
        if_neg (not_not_intro rfl)]
    · intro n cnt hcnt hn
      unfold n_active_fe_indices at hcnt
      rw [if_neg (not_not_intro hi), if_neg hs] at hcnt
      cases hcnt
      unfold nth_active_fe_index
      rw [if_neg (not_not_intro hi), if_neg hs, if_pos (by omega)]
  · intro fe lvl L i n hi hs
    unfold nth_active_fe_index
    rw [if_neg (not_not_intro hi), if_pos hs]
  · intro fe offsets pre suf recs j n hj hwf hoff hns
    have hlay := subcell_variant_list_layout fe recs pre suf hwf
    constructor
    · intro hn
      unfold subcell_nth_active_fe_index
      rw [if_neg (not_not_intro hj), if_neg (by rw [hoff]; exact hns), hoff,
        hlay, if_neg (not_not_intro (by simpa using hn))]
    · intro hn
      unfold subcell_nth_active_fe_index
      rw [if_neg (not_not_intro hj), if_neg (by rw [hoff]; exact hns), hoff,
        hlay, if_pos (by simpa using hn)]
  · intro fe offsets dofs j n hj hs
    unfold subcell_nth_active_fe_index
    rw [if_neg (not_not_intro hj), if_pos hs]

theorem C6_witness :
    nth_active_fe_index fe_c lvl_c 0 1 0 = .ok 1 ∧
    nth_active_fe_index fe_c lvl_c 0 1 5 = .error .indexOutOfRange ∧
    nth_active_fe_index fe_c lvl_empty 0 0 3 = .error .noDoFsHere ∧
    subcell_nth_active_fe_index fe_s offsets_s dofs_s 0 1 = .ok 7 ∧
    subcell_nth_active_fe_index fe_s offsets_s dofs_s 0 2
      = .error .indexOutOfRange := by
  have h1 := C6_nth_active.1 fe_c lvl_c 0 1 (by decide) (by decide)
  have h3 := C6_nth_active.2.2.1 fe_s offsets_s [] []
    [(3, [10, 11]), (7, [20])] 0 1 (by decide)
    (by unfold wf_records; decide) (by decide) (by decide)
  have h4 := C6_nth_active.2.2.1 fe_s offsets_s [] []
    [(3, [10, 11]), (7, [20])] 0 2 (by decide)
    (by unfold wf_records; decide) (by decide) (by decide)
  exact ⟨h1.1, h1.2 5 1 rfl (by decide),
    C6_nth_active.2.1 fe_c lvl_empty 0 0 3 (by decide) (by decide),
    h3.1 (by decide), h4.2 (by decide)⟩

end DealII
